import Mathlib

/-!
The serial protocol layer of motor-lib (`main.cc`).

A shallow embedding of the controller operations of `src/main.cc`
(`smcGetVariable`, `exit_safe_start`, the read accessors, `get_powerup_time`,
`set_current_speed`, `close_device`) together with the properties of the wire
format and of the error-sentinel discipline.

Conventions of the embedding

* C `int` values are `Int`; a result that may leave the 32-bit range is brought
  back with `toI32` (two's-complement wrap). `unsigned int` values are `Nat`
  below `2^32` (`toU32`), `unsigned char` values are `Nat` below `256` (`toU8`).
* `write`, `read`, `perror`, `close` and `free` are the only effects. They act
  on a `World`: the state of the device behind the file descriptors (of an
  arbitrary type `σ`, driven by an arbitrary `Transport σ`) and the list of
  effects performed so far.
* A `device_config*` that is only read through is `Option device_config`
  (`none` is `NULL`). `close_device`, which releases the block, works on
  addresses of an explicit heap.
-/

namespace Motor

/-! ## Constants (`main.cc` lines 12-28) -/

def SERIAL_ERROR : Int := -9999
def SERIAL_OK : Int := 0

def MOTOR_EXIT_SAFE_START : Nat := 0x83
def MOTOR_FORWARD : Nat := 0x85
def MOTOR_REVERSE : Nat := 0x86
def MOTOR_BRAKE : Nat := 0x92
def MOTOR_GET_VARIABLE : Nat := 0xA1
def MOTOR_STOP : Nat := 0xE0

def MOTOR_VAR_REQUESTED_SPEED : Nat := 20
def MOTOR_VAR_CURRENT_SPEED : Nat := 21
def MOTOR_VAR_BRAKE : Nat := 22
def MOTOR_VAR_BATTERY_VOLTAGE : Nat := 23
def MOTOR_VAR_CONTROLLER_TEMPERATURE : Nat := 24
def MOTOR_VAR_POWERUP_TIME_LO : Nat := 28
def MOTOR_VAR_POWERUP_TIME_HI : Nat := 29

/-! ## Machine integers -/

/-- Conversion to `unsigned int`: the value modulo `2^32`. -/
def toU32 (x : Int) : Nat := (x % 4294967296).toNat

/-- Conversion to `int`: the value modulo `2^32`, read as two's complement. -/
def toI32 (x : Int) : Int :=
  if x % 4294967296 < 2147483648 then x % 4294967296 else x % 4294967296 - 4294967296

/-- Conversion to `unsigned char`: the value modulo `256`. -/
def toU8 (x : Int) : Nat := (x % 256).toNat

/-- The C operator `a & b` on two `int`s: bitwise and of the 32-bit patterns. -/
def and32 (a b : Int) : Int := toI32 ((toU32 a &&& toU32 b : Nat) : Int)

/-- The C operator `a >> n` on an `int`: arithmetic shift (floor of `a / 2^n`). -/
def shr32 (a : Int) (n : Nat) : Int := a >>> n

/-- The C operator `a << n` on an `int`, wrapped to 32 bits. -/
def shl32 (a : Int) (n : Nat) : Int := toI32 (a * 2 ^ n)

/-- The C operator `a + b` on two `int`s, wrapped to 32 bits. -/
def add32 (a b : Int) : Int := toI32 (a + b)

/-- The C operator `-a` on an `int`, wrapped to 32 bits. -/
def neg32 (a : Int) : Int := toI32 (-a)

/-! ## Effects -/

/-- The two messages passed to `perror`. -/
inductive Msg where
  | error_writing
  | error_reading
  deriving DecidableEq, Repr

/-- One effect performed by the program. `write fd buf` is `write(fd, buf, buf.length)`,
`read fd n` is `read(fd, _, n)`. -/
inductive Event where
  | write (fd : Int) (buf : List Nat)
  | read (fd : Int) (count : Nat)
  | perror (m : Msg)
  | close (fd : Int)
  | free (addr : Nat)
  deriving DecidableEq, Repr

/-- The behaviour of the byte channel behind the file descriptors.
`write s fd buf` answers `none` for an error (`-1`) or `some k` for `k` bytes accepted;
`read s fd n` answers `none` for an error (`-1`) or `some bs` for the bytes available. -/
structure Transport (σ : Type) where
  write : σ → Int → List Nat → Option Nat × σ
  read : σ → Int → Nat → Option (List Nat) × σ

/-- The device state and the effects performed so far (oldest first). -/
structure World (σ : Type) where
  dev : σ
  log : List Event
  deriving DecidableEq, Repr

/-- The value returned by `write(fd, buf, n)`: `-1`, or the number of bytes accepted
(never more than `n`). -/
def writeCount (r : Option Nat) (n : Nat) : Int :=
  match r with
  | none => -1
  | some k => ((min k n : Nat) : Int)

/-- The value returned by `read(fd, buf, n)`: `-1`, or the number of bytes delivered
(never more than `n`). -/
def readCount (r : Option (List Nat)) (n : Nat) : Int :=
  match r with
  | none => -1
  | some bs => ((min bs.length n : Nat) : Int)

/-- The bytes stored into the buffer by `read(fd, buf, n)`. -/
def readBytes (r : Option (List Nat)) (n : Nat) : List Nat :=
  match r with
  | none => []
  | some bs => (bs.take n).map (fun b => b % 256)

/-- The call `write(fd, buf, sizeof buf)`. -/
def sys_write {σ : Type} (T : Transport σ) (fd : Int) (buf : List Nat) (w : World σ) :
    Int × World σ :=
  (writeCount (T.write w.dev fd buf).1 buf.length,
    { dev := (T.write w.dev fd buf).2, log := w.log ++ [Event.write fd buf] })

/-- The call `read(fd, buf, count)`: the returned count and the bytes stored. -/
def sys_read {σ : Type} (T : Transport σ) (fd : Int) (count : Nat) (w : World σ) :
    (Int × List Nat) × World σ :=
  ((readCount (T.read w.dev fd count).1 count, readBytes (T.read w.dev fd count).1 count),
    { dev := (T.read w.dev fd count).2, log := w.log ++ [Event.read fd count] })

/-- The call `perror(msg)`. -/
def sys_perror {σ : Type} (m : Msg) (w : World σ) : World σ :=
  { w with log := w.log ++ [Event.perror m] }

/-! ## The operations -/

/-- The struct `device_config` (lines 78-82). -/
structure device_config where
  file_descriptor : Int
  deriving DecidableEq, Repr

/-- Function `smcGetVariable` (lines 37-54). -/
def smcGetVariable {σ : Type} (T : Transport σ) (fd : Int) (variableId : Nat)
    (w : World σ) : Int × World σ :=
  let command : List Nat := [MOTOR_GET_VARIABLE, variableId % 256]
  let wr := sys_write T fd command w
  if wr.1 = -1 then
    (SERIAL_ERROR, sys_perror Msg.error_writing wr.2)
  else
    let rd := sys_read T fd 2 wr.2
    if rd.1.1 ≠ 2 then
      (SERIAL_ERROR, sys_perror Msg.error_reading rd.2)
    else
      (((rd.1.2.getD 0 0 : Nat) : Int) + shl32 ((rd.1.2.getD 1 0 : Nat) : Int) 8, rd.2)

/-- Function `smcGetErrorStatus` (lines 60-63). -/
def smcGetErrorStatus {σ : Type} (T : Transport σ) (fd : Int) (w : World σ) : Int × World σ :=
  smcGetVariable T fd 0 w

/-- Function `exit_safe_start` (lines 111-127); `retval` is an `unsigned int`
converted back to `int` by the `return`. -/
def exit_safe_start {σ : Type} (T : Transport σ) (dc : Option device_config)
    (w : World σ) : Int × World σ :=
  let retval : Nat := toU32 SERIAL_ERROR
  match dc with
  | some d =>
    let command : List Nat := [MOTOR_EXIT_SAFE_START]
    let wr := sys_write T d.file_descriptor command w
    if wr.1 = -1 then
      (toI32 retval, sys_perror Msg.error_writing wr.2)
    else
      (toI32 (toU32 SERIAL_OK), wr.2)
  | none => (toI32 retval, w)

/-- Function `get_requested_speed` (lines 129-132). -/
def get_requested_speed {σ : Type} (T : Transport σ) (dc : Option device_config)
    (w : World σ) : Int × World σ :=
  match dc with
  | some d => smcGetVariable T d.file_descriptor MOTOR_VAR_REQUESTED_SPEED w
  | none => (SERIAL_ERROR, w)

/-- Function `get_current_speed` (lines 134-137). -/
def get_current_speed {σ : Type} (T : Transport σ) (dc : Option device_config)
    (w : World σ) : Int × World σ :=
  match dc with
  | some d => smcGetVariable T d.file_descriptor MOTOR_VAR_CURRENT_SPEED w
  | none => (SERIAL_ERROR, w)

/-- Function `get_powerup_time` (lines 139-154); the result is an `unsigned int`. -/
def get_powerup_time {σ : Type} (T : Transport σ) (dc : Option device_config)
    (w : World σ) : Nat × World σ :=
  let retval : Nat := 0
  match dc with
  | some d =>
    let lo := smcGetVariable T d.file_descriptor MOTOR_VAR_POWERUP_TIME_LO w
    let hi := smcGetVariable T d.file_descriptor MOTOR_VAR_POWERUP_TIME_HI lo.2
    if lo.1 ≠ SERIAL_ERROR ∧ hi.1 ≠ SERIAL_ERROR then
      (toU32 (add32 (and32 lo.1 0xffff) (shl32 (and32 hi.1 0xffff) 16)), hi.2)
    else
      (retval, hi.2)
  | none => (retval, w)

/-- Function `get_current_voltage` (lines 156-159). -/
def get_current_voltage {σ : Type} (T : Transport σ) (dc : Option device_config)
    (w : World σ) : Int × World σ :=
  match dc with
  | some d => smcGetVariable T d.file_descriptor MOTOR_VAR_BATTERY_VOLTAGE w
  | none => (SERIAL_ERROR, w)

/-- Function `get_current_temperature` (lines 161-164). -/
def get_current_temperature {σ : Type} (T : Transport σ) (dc : Option device_config)
    (w : World σ) : Int × World σ :=
  match dc with
  | some d => smcGetVariable T d.file_descriptor MOTOR_VAR_CONTROLLER_TEMPERATURE w
  | none => (SERIAL_ERROR, w)

/-- Function `set_current_speed` (lines 166-197). -/
def set_current_speed {σ : Type} (T : Transport σ) (dc : Option device_config)
    (speed : Int) (w : World σ) : Int × World σ :=
  match dc with
  | some d =>
    let command0 : Nat := if speed < 0 then MOTOR_REVERSE else MOTOR_FORWARD
    let speed1 : Int := if speed < 0 then neg32 speed else speed
    let command : List Nat :=
      [command0, toU8 (and32 speed1 0x1F), toU8 (and32 (shr32 speed1 5) 0x7F)]
    let wr := sys_write T d.file_descriptor command w
    if wr.1 = -1 then
      (SERIAL_ERROR, sys_perror Msg.error_writing wr.2)
    else
      (SERIAL_OK, wr.2)
  | none => (SERIAL_ERROR, w)

/-! ## A scripted transport, for evaluating the operations on concrete runs -/

/-- The answers a scripted channel still has to give, in order. -/
structure Script where
  writes : List (Option Nat)
  reads : List (Option (List Nat))
  deriving DecidableEq, Repr

/-- A channel that answers each call with the next entry of its script, and with
an error once the script is used up. -/
def scripted : Transport Script where
  write := fun s _ _ =>
    match s.writes with
    | [] => (none, s)
    | r :: rest => (r, { s with writes := rest })
  read := fun s _ _ =>
    match s.reads with
    | [] => (none, s)
    | r :: rest => (r, { s with reads := rest })

/-- A fresh world over a script: nothing has been performed yet. -/
def start (ws : List (Option Nat)) (rs : List (Option (List Nat))) : World Script :=
  { dev := { writes := ws, reads := rs }, log := [] }

/-! ## Heap blocks, for `close_device` -/

/-- A heap block obtained from `malloc (sizeof(device_config))`: still allocated and
holding a `device_config`, or already handed back to `free`. -/
inductive Cell where
  | live (c : device_config)
  | released
  deriving DecidableEq, Repr

/-- What goes wrong when a pointer is followed to a block that is not allocated. -/
inductive Fault where
  | use_after_free (addr : Nat)
  | wild_pointer (addr : Nat)
  deriving DecidableEq, Repr

/-- The outcome of a call that follows a pointer. -/
inductive Outcome (α : Type) where
  | done (a : α)
  | fault (f : Fault)
  deriving DecidableEq, Repr

/-- The resource state: the heap blocks by address, the open file descriptors, and
the effects performed so far. -/
structure Store where
  heap : List (Nat × Cell)
  fds : List Int
  log : List Event
  deriving DecidableEq, Repr

/-- The call `free(addr)` on an allocated block. -/
def Store.release (m : Store) (addr : Nat) : List (Nat × Cell) :=
  m.heap.map (fun p => if p.1 = addr then (addr, Cell.released) else p)

/-- Function `close_device` (lines 199-208). The pointer `dc` is `none` for `NULL` and
`some addr` otherwise. The assignment `dc = NULL` of line 205 writes the callee's own
copy of the pointer, which is dead after it: the caller's pointer is not changed, so
the assignment leaves no trace in the result. -/
def close_device (dc : Option Nat) (m : Store) : Outcome Store :=
  match dc with
  | some addr =>
    match m.heap.lookup addr with
    | some (Cell.live c) =>
      Outcome.done
        { heap := m.release addr,
          fds := m.fds.erase c.file_descriptor,
          log := m.log ++ [Event.close c.file_descriptor, Event.free addr] }
    | some Cell.released => Outcome.fault (Fault.use_after_free addr)
    | none => Outcome.fault (Fault.wild_pointer addr)
  | none => Outcome.done m

/-! ## Observing the writes -/

/-- The write calls of an effect log, in order: the descriptor and the bytes of each. -/
def writesOf (log : List Event) : List (Int × List Nat) :=
  log.filterMap (fun e =>
    match e with
    | Event.write fd buf => some (fd, buf)
    | _ => none)

/-- The read calls of an effect log, in order: the descriptor and the count of each. -/
def readsOf (log : List Event) : List (Int × Nat) :=
  log.filterMap (fun e =>
    match e with
    | Event.read fd count => some (fd, count)
    | _ => none)

/-! ## The uptime lines of the query mode of `main` -/

/-- The three values that `main` hands to `printf` for the uptime of one controller
(lines 249-256), from the value `t` returned by `get_powerup_time`:
`int up = t`, then `up / 60000`, `up / 1000 - (up / 60000) * 60` and `up` itself.
The conversion to `int` wraps, and the C division truncates towards zero. -/
def uptime_fields (t : Nat) : Int × Int × Int :=
  let up : Int := toI32 (t : Int)
  let up_min : Int := Int.tdiv up 60000
  let up_sec : Int := Int.tdiv up 1000 - up_min * 60
  (up_min, up_sec, up)

/-- The uptime part of the query mode of `main` (lines 249-256): the powered-on time of
`dc0`, then that of `dc1`, and the values printed for each. -/
def main_uptime {σ : Type} (T : Transport σ) (dc0 dc1 : Option device_config)
    (w : World σ) : ((Int × Int × Int) × (Int × Int × Int)) × World σ :=
  let up0 := get_powerup_time T dc0 w
  let up1 := get_powerup_time T dc1 up0.2
  ((uptime_fields up0.1, uptime_fields up1.1), up1.2)

/-! ## Machine-integer facts -/

theorem toI32_of_range (x : Int) (h1 : -2147483648 ≤ x) (h2 : x ≤ 2147483647) :
    toI32 x = x := by
  unfold toI32
  split <;> omega

theorem toU32_natCast (n : Nat) (h : n < 4294967296) : toU32 (n : Int) = n := by
  unfold toU32
  omega

theorem toU8_natCast (n : Nat) (h : n < 256) : toU8 (n : Int) = n := by
  unfold toU8
  omega

theorem and32_natCast (a b : Nat) (ha : a < 4294967296) (hb : b ≤ 2147483647) :
    and32 (a : Int) (b : Int) = ((a &&& b : Nat) : Int) := by
  have hle : a &&& b ≤ b := Nat.and_le_right
  unfold and32
  rw [toU32_natCast a ha, toU32_natCast b (by omega)]
  exact toI32_of_range _ (by omega) (by omega)

theorem shr32_natCast (a n : Nat) : shr32 (a : Int) n = ((a >>> n : Nat) : Int) := rfl

theorem writeCount_eq_neg_one (r : Option Nat) (n : Nat) : writeCount r n = -1 ↔ r = none := by
  cases r with
  | none => simp [writeCount]
  | some k => simp [writeCount]; omega


theorem neg32_int_min : neg32 (-2147483648) = -2147483648 := by decide

/-- The two payload bytes stored by `set_current_speed`, in terms of the magnitude. -/
theorem speed_payload (speed : Int) (h1 : -2147483648 ≤ speed) (h2 : speed ≤ 2147483647) :
    toU8 (and32 (if speed < 0 then neg32 speed else speed) 0x1F) = speed.natAbs &&& 0x1F ∧
    toU8 (and32 (shr32 (if speed < 0 then neg32 speed else speed) 5) 0x7F)
      = (speed.natAbs >>> 5) &&& 0x7F := by
  have key : ∀ n : Nat, n ≤ 2147483647 →
      toU8 (and32 (n : Int) 0x1F) = n &&& 0x1F ∧
      toU8 (and32 (shr32 (n : Int) 5) 0x7F) = (n >>> 5) &&& 0x7F := by
    intro n hn
    have e1 : and32 (n : Int) 0x1F = ((n &&& 0x1F : Nat) : Int) :=
      and32_natCast n 0x1F (by omega) (by decide)
    have hs : n >>> 5 ≤ n := by
      rw [Nat.shiftRight_eq_div_pow]; exact Nat.div_le_self _ _
    have e2 : and32 (shr32 (n : Int) 5) 0x7F = (((n >>> 5) &&& 0x7F : Nat) : Int) := by
      rw [shr32_natCast]
      exact and32_natCast (n >>> 5) 0x7F (by omega) (by decide)
    have b1 : n &&& 0x1F ≤ 0x1F := Nat.and_le_right
    have b2 : (n >>> 5) &&& 0x7F ≤ 0x7F := Nat.and_le_right
    rw [e1, e2]
    exact ⟨toU8_natCast _ (by omega), toU8_natCast _ (by omega)⟩
  by_cases hneg : speed < 0
  · simp only [hneg, if_true]
    by_cases hmin : speed = -2147483648
    · subst hmin
      rw [neg32_int_min]
      decide
    · have hn : neg32 speed = ((speed.natAbs : Nat) : Int) := by
        unfold neg32
        rw [toI32_of_range _ (by omega) (by omega)]
        omega
      rw [hn]
      exact key _ (by omega)
  · simp only [hneg, if_false]
    have hn : speed = ((speed.natAbs : Nat) : Int) := by omega
    have := key speed.natAbs (by omega)
    rw [← hn] at this
    exact this

/-- The whole effect of `set_current_speed` on a present handle, in terms of the
magnitude of the speed and of the answer of the channel. -/
theorem set_current_speed_some {σ : Type} (T : Transport σ) (d : device_config)
    (speed : Int) (w : World σ) (h1 : -2147483648 ≤ speed) (h2 : speed ≤ 2147483647)
    (cmd : List Nat)
    (hcmd : cmd = [if speed < 0 then 0x86 else 0x85, speed.natAbs &&& 0x1F,
      (speed.natAbs >>> 5) &&& 0x7F]) :
    set_current_speed T (some d) speed w =
      if (T.write w.dev d.file_descriptor cmd).1 = none then
        (SERIAL_ERROR, { dev := (T.write w.dev d.file_descriptor cmd).2,
                         log := w.log ++ [Event.write d.file_descriptor cmd,
                                          Event.perror Msg.error_writing] })
      else
        (SERIAL_OK, { dev := (T.write w.dev d.file_descriptor cmd).2,
                      log := w.log ++ [Event.write d.file_descriptor cmd] }) := by
  obtain ⟨p1, p2⟩ := speed_payload speed h1 h2
  have hop : (if speed < 0 then MOTOR_REVERSE else MOTOR_FORWARD)
      = (if speed < 0 then 0x86 else 0x85) := rfl
  simp only [set_current_speed, p1, p2, hop, ← hcmd, sys_write, sys_perror,
    writeCount_eq_neg_one]
  split <;> simp

/-! ## The set-speed command -/

/-- C1: for every signed 32-bit speed and every present handle, `set_current_speed`
performs exactly one write, of the three bytes `[op, b1, b2]` with `op = 0x85` for
`speed >= 0` and `op = 0x86` for `speed < 0`, `b1 = |speed| & 0x1F` and
`b2 = (|speed| >> 5) & 0x7F` (followed by a `perror` exactly when it reports an error);
speed 100 gives `(0x85, 4, 3)` and speed -50 gives `(0x86, 18, 1)`. -/
theorem set_current_speed_writes_command {σ : Type} (T : Transport σ) (d : device_config)
    (w : World σ) (speed : Int) (h1 : -2147483648 ≤ speed) (h2 : speed ≤ 2147483647) :
    (set_current_speed T (some d) speed w).2.log
        = w.log ++ Event.write d.file_descriptor
            [if 0 ≤ speed then 0x85 else 0x86, speed.natAbs &&& 0x1F,
              (speed.natAbs >>> 5) &&& 0x7F]
          :: (if (set_current_speed T (some d) speed w).1 = SERIAL_ERROR
              then [Event.perror Msg.error_writing] else []) ∧
    (set_current_speed T (some d) 100 w).2.log
        = w.log ++ Event.write d.file_descriptor [0x85, 4, 3]
          :: (if (set_current_speed T (some d) 100 w).1 = SERIAL_ERROR
              then [Event.perror Msg.error_writing] else []) ∧
    (set_current_speed T (some d) (-50) w).2.log
        = w.log ++ Event.write d.file_descriptor [0x86, 18, 1]
          :: (if (set_current_speed T (some d) (-50) w).1 = SERIAL_ERROR
              then [Event.perror Msg.error_writing] else []) := by
  have gen : ∀ s : Int, -2147483648 ≤ s → s ≤ 2147483647 →
      (set_current_speed T (some d) s w).2.log
        = w.log ++ Event.write d.file_descriptor
            [if 0 ≤ s then 0x85 else 0x86, s.natAbs &&& 0x1F, (s.natAbs >>> 5) &&& 0x7F]
          :: (if (set_current_speed T (some d) s w).1 = SERIAL_ERROR
              then [Event.perror Msg.error_writing] else []) := by
    intro s hs1 hs2
    have hop : (if 0 ≤ s then (0x85 : Nat) else 0x86) = (if s < 0 then 0x86 else 0x85) := by
      by_cases hs : s < 0
      · rw [if_pos hs, if_neg (by omega)]
      · rw [if_neg hs, if_pos (by omega)]
    rw [set_current_speed_some T d s w hs1 hs2 _ rfl, hop]
    by_cases hw : (T.write w.dev d.file_descriptor
        [if s < 0 then 0x86 else 0x85, s.natAbs &&& 0x1F, (s.natAbs >>> 5) &&& 0x7F]).1 = none
    · rw [if_pos hw]
      simp [SERIAL_ERROR]
    · rw [if_neg hw]
      simp [SERIAL_ERROR, SERIAL_OK]
  exact ⟨gen speed h1 h2, gen 100 (by decide) (by decide), gen (-50) (by decide) (by decide)⟩

theorem set_current_speed_writes_command_witness :
    (-2147483648 : Int) ≤ -50 ∧ (-50 : Int) ≤ 2147483647 ∧
    (set_current_speed scripted (some ⟨3⟩) (-50) (start [some 3] [])).2.log
      = [Event.write 3 [0x86, 18, 1]] :=
  ⟨by decide, by decide,
    (set_current_speed_writes_command scripted ⟨3⟩ (start [some 3] []) (-50)
      (by decide) (by decide)).1.trans (by decide)⟩

/-! ## Reading a variable -/

theorem readCount_le (r : Option (List Nat)) (n : Nat) : readCount r n ≤ n := by
  cases r with
  | none => simp only [readCount]; omega
  | some bs => simp only [readCount]; omega

theorem readCount_eq_two (r : Option (List Nat)) :
    readCount r 2 = 2 ↔ ∃ b0 b1 rest, r = some (b0 :: b1 :: rest) := by
  cases r with
  | none => simp [readCount]
  | some bs =>
    match bs with
    | [] => simp [readCount]
    | [_] => simp [readCount]
    | _ :: _ :: _ => simp [readCount]

theorem shl32_byte (b : Nat) (hb : b ≤ 255) : shl32 (b : Int) 8 = 256 * (b : Int) := by
  unfold shl32
  rw [toI32_of_range _ (by omega) (by omega)]
  omega

/-- The whole effect of `smcGetVariable`, by the answers of the channel. -/
theorem smcGetVariable_eq {σ : Type} (T : Transport σ) (fd : Int) (variableId : Nat)
    (w : World σ) (cmd : List Nat) (hcmd : cmd = [0xA1, variableId % 256]) :
    smcGetVariable T fd variableId w =
      if (T.write w.dev fd cmd).1 = none then
        (SERIAL_ERROR, { dev := (T.write w.dev fd cmd).2,
                         log := w.log ++ [Event.write fd cmd, Event.perror Msg.error_writing] })
      else
        match (T.read (T.write w.dev fd cmd).2 fd 2).1 with
        | some (b0 :: b1 :: _) =>
          (((b0 % 256 : Nat) : Int) + 256 * ((b1 % 256 : Nat) : Int),
            { dev := (T.read (T.write w.dev fd cmd).2 fd 2).2,
              log := w.log ++ [Event.write fd cmd, Event.read fd 2] })
        | _ =>
          (SERIAL_ERROR,
            { dev := (T.read (T.write w.dev fd cmd).2 fd 2).2,
              log := w.log ++ [Event.write fd cmd, Event.read fd 2,
                               Event.perror Msg.error_reading] }) := by
  subst hcmd
  have hc : [MOTOR_GET_VARIABLE, variableId % 256] = [0xA1, variableId % 256] := rfl
  simp only [smcGetVariable, hc, sys_write, sys_perror, writeCount_eq_neg_one]
  by_cases hw : (T.write w.dev fd [0xA1, variableId % 256]).1 = none
  · simp [hw]
  · simp only [hw, if_false, sys_read]
    rcases hr : (T.read (T.write w.dev fd [0xA1, variableId % 256]).2 fd 2).1 with _ | bs
    · simp [readCount]
    · match bs with
      | [] => simp [readCount]
      | [_] => simp [readCount]
      | b0 :: b1 :: rest =>
        have e : shl32 ((b1 % 256 : Nat) : Int) 8 = 256 * ((b1 % 256 : Nat) : Int) :=
          shl32_byte _ (by omega)
        simp [readCount, readBytes]
        exact_mod_cast e

/-- C2: for every pair of response bytes `b0`, `b1` in `[0, 255]`, when the command write
succeeds and the read delivers exactly those two bytes, `smcGetVariable` returns
`b0 + 256 * b1`, which is `b0 + (b1 << 8)`. -/
theorem smcGetVariable_little_endian {σ : Type} (T : Transport σ) (fd : Int)
    (variableId : Nat) (w : World σ) (b0 b1 k : Nat) (rest : List Nat)
    (hb0 : b0 ≤ 255) (hb1 : b1 ≤ 255)
    (hw : (T.write w.dev fd [0xA1, variableId % 256]).1 = some k)
    (hr : (T.read (T.write w.dev fd [0xA1, variableId % 256]).2 fd 2).1
      = some (b0 :: b1 :: rest)) :
    (smcGetVariable T fd variableId w).1 = (b0 : Int) + 256 * (b1 : Int) ∧
    (smcGetVariable T fd variableId w).1 = ((b0 + (b1 <<< 8) : Nat) : Int) := by
  have h : (smcGetVariable T fd variableId w).1 = (b0 : Int) + 256 * (b1 : Int) := by
    rw [smcGetVariable_eq T fd variableId w _ rfl]
    simp only [hw, hr]
    simp [Nat.mod_eq_of_lt (show b0 < 256 by omega), Nat.mod_eq_of_lt (show b1 < 256 by omega)]
  refine ⟨h, ?_⟩
  rw [h, Nat.shiftLeft_eq]
  push_cast
  ring

theorem smcGetVariable_little_endian_witness :
    (0x34 : Nat) ≤ 255 ∧ (0x12 : Nat) ≤ 255 ∧
    (smcGetVariable scripted 3 23 (start [some 2] [some [0x34, 0x12]])).1 = 0x1234 :=
  ⟨by decide, by decide,
    (smcGetVariable_little_endian scripted 3 23 (start [some 2] [some [0x34, 0x12]])
      0x34 0x12 2 [] (by decide) (by decide) (by decide) (by decide)).1.trans (by decide)⟩

/-- C3 as stated fails on a command write that is accepted in part, which the
specification counts as a failed write: the channel takes 1 of the 2 command bytes
(`write` returns 1, not -1), and `smcGetVariable` goes on to read and returns the decoded
value `0x1234`, not the sentinel. -/
theorem smcGetVariable_short_write :
    (sys_write scripted 3 [0xA1, 20] (start [some 1] [some [0x34, 0x12]])).1 = 1 ∧
    smcGetVariable scripted 3 20 (start [some 1] [some [0x34, 0x12]])
      = (4660, { dev := ⟨[], []⟩, log := [Event.write 3 [0xA1, 20], Event.read 3 2] }) ∧
    (smcGetVariable scripted 3 20 (start [some 1] [some [0x34, 0x12]])).1 ≠ SERIAL_ERROR := by
  decide

/-- C3, amended: `smcGetVariable` returns the sentinel `SERIAL_ERROR` (-9999) when the
command write reports an error (`write` returns -1), and then performs no read; for every
other result of the write, also a count below the two command bytes, it reads, and returns
the sentinel when the read does not deliver exactly two bytes; otherwise it returns the
decoded value `b0 + 256 * b1` of the two bytes delivered, which lies in `[0, 65535]` and
so is never the sentinel. The result is the sentinel exactly when the write returned -1
or fewer than two response bytes arrived. -/
theorem smcGetVariable_sentinel {σ : Type} (T : Transport σ) (fd : Int) (variableId : Nat)
    (w : World σ) (wo : Option Nat) (s1 : σ) (ro : Option (List Nat)) (s2 : σ)
    (hw : T.write w.dev fd [0xA1, variableId % 256] = (wo, s1))
    (hr : T.read s1 fd 2 = (ro, s2)) :
    ((sys_write T fd [0xA1, variableId % 256] w).1 = -1 ↔ wo = none) ∧
    (∀ k : Nat, wo = some k →
      (sys_write T fd [0xA1, variableId % 256] w).1 = ((min k 2 : Nat) : Int)) ∧
    (wo = none → smcGetVariable T fd variableId w
        = (SERIAL_ERROR,
            { dev := s1,
              log := w.log ++ [Event.write fd [0xA1, variableId % 256],
                               Event.perror Msg.error_writing] })) ∧
    (wo ≠ none → readCount ro 2 ≠ 2 → smcGetVariable T fd variableId w
        = (SERIAL_ERROR,
            { dev := s2,
              log := w.log ++ [Event.write fd [0xA1, variableId % 256], Event.read fd 2,
                               Event.perror Msg.error_reading] })) ∧
    (readCount ro 2 = 2 ↔ ∃ (b0 b1 : Nat) (rest : List Nat), ro = some (b0 :: b1 :: rest)) ∧
    (wo ≠ none → ∀ (b0 b1 : Nat) (rest : List Nat), ro = some (b0 :: b1 :: rest) →
        smcGetVariable T fd variableId w
          = (((b0 % 256 : Nat) : Int) + 256 * ((b1 % 256 : Nat) : Int),
              { dev := s2,
                log := w.log ++ [Event.write fd [0xA1, variableId % 256], Event.read fd 2] }) ∧
        0 ≤ (smcGetVariable T fd variableId w).1 ∧
        (smcGetVariable T fd variableId w).1 ≤ 65535 ∧
        (smcGetVariable T fd variableId w).1 ≠ SERIAL_ERROR) ∧
    ((smcGetVariable T fd variableId w).1 = SERIAL_ERROR ↔ wo = none ∨ readCount ro 2 < 2) ∧
    SERIAL_ERROR = -9999 := by
  have hle := readCount_le ro 2
  have hw1 : (T.write w.dev fd [0xA1, variableId % 256]).1 = wo := by rw [hw]
  have hw2 : (T.write w.dev fd [0xA1, variableId % 256]).2 = s1 := by rw [hw]
  have hr1 : (T.read s1 fd 2).1 = ro := by rw [hr]
  have hr2 : (T.read s1 fd 2).2 = s2 := by rw [hr]
  have hret : (sys_write T fd [0xA1, variableId % 256] w).1 = -1 ↔ wo = none := by
    simp only [sys_write, hw1]
    exact writeCount_eq_neg_one wo _
  have hcount : ∀ k : Nat, wo = some k →
      (sys_write T fd [0xA1, variableId % 256] w).1 = ((min k 2 : Nat) : Int) := by
    intro k hk
    simp only [sys_write, hw1, hk, writeCount, List.length_cons, List.length_nil]
  have hbad : wo ≠ none → readCount ro 2 ≠ 2 → smcGetVariable T fd variableId w
      = (SERIAL_ERROR,
          { dev := s2,
            log := w.log ++ [Event.write fd [0xA1, variableId % 256], Event.read fd 2,
                             Event.perror Msg.error_reading] }) := by
    intro h1 h2
    have hne : ¬ ∃ b0 b1 rest, ro = some (b0 :: b1 :: rest) :=
      fun h => h2 ((readCount_eq_two ro).2 h)
    rw [smcGetVariable_eq T fd variableId w _ rfl, hw1, hw2, hr1, hr2, if_neg h1]
    rcases ro with _ | _ | ⟨b0, _ | ⟨b1, rest⟩⟩
    · rfl
    · rfl
    · rfl
    · exact absurd ⟨b0, b1, rest, rfl⟩ hne
  have hgood : wo ≠ none → ∀ (b0 b1 : Nat) (rest : List Nat), ro = some (b0 :: b1 :: rest) →
      smcGetVariable T fd variableId w
        = (((b0 % 256 : Nat) : Int) + 256 * ((b1 % 256 : Nat) : Int),
            { dev := s2,
              log := w.log ++ [Event.write fd [0xA1, variableId % 256], Event.read fd 2] }) := by
    intro h1 b0 b1 rest heq
    rw [smcGetVariable_eq T fd variableId w _ rfl, hw1, hw2, hr1, hr2, if_neg h1, heq]
  have hfail : wo = none → smcGetVariable T fd variableId w
      = (SERIAL_ERROR,
          { dev := s1,
            log := w.log ++ [Event.write fd [0xA1, variableId % 256],
                             Event.perror Msg.error_writing] }) := by
    intro h1
    rw [smcGetVariable_eq T fd variableId w _ rfl, hw1, hw2, if_pos h1]
  have hrange : wo ≠ none → ∀ (b0 b1 : Nat) (rest : List Nat), ro = some (b0 :: b1 :: rest) →
      0 ≤ (smcGetVariable T fd variableId w).1 ∧
      (smcGetVariable T fd variableId w).1 ≤ 65535 ∧
      (smcGetVariable T fd variableId w).1 ≠ SERIAL_ERROR := by
    intro h1 b0 b1 rest heq
    rw [hgood h1 b0 b1 rest heq]
    simp only [SERIAL_ERROR]
    omega
  refine ⟨hret, hcount, hfail, hbad, readCount_eq_two ro,
    fun h1 b0 b1 rest heq => ⟨hgood h1 b0 b1 rest heq, hrange h1 b0 b1 rest heq⟩,
    ⟨fun h => ?_, fun h => ?_⟩, rfl⟩
  · by_cases h1 : wo = none
    · exact Or.inl h1
    · by_cases h2 : readCount ro 2 = 2
      · obtain ⟨b0, b1, rest, heq⟩ := (readCount_eq_two ro).1 h2
        exact absurd h (hrange h1 b0 b1 rest heq).2.2
      · exact Or.inr (by omega)
  · rcases h with h | h
    · rw [hfail h]
    · by_cases h1 : wo = none
      · rw [hfail h1]
      · rw [hbad h1 (by omega)]

theorem smcGetVariable_sentinel_witness :
    smcGetVariable scripted 3 20 (start [some 2] [some [0xCD, 0xAB]])
      = (0xABCD, { dev := ⟨[], []⟩, log := [Event.write 3 [0xA1, 20], Event.read 3 2] }) ∧
    smcGetVariable scripted 3 20 (start [some 2] [some [7]])
      = (SERIAL_ERROR,
          { dev := ⟨[], []⟩,
            log := [Event.write 3 [0xA1, 20], Event.read 3 2,
                    Event.perror Msg.error_reading] }) :=
  ⟨(((smcGetVariable_sentinel scripted 3 20 (start [some 2] [some [0xCD, 0xAB]])
      (some 2) ⟨[], [some [0xCD, 0xAB]]⟩ (some [0xCD, 0xAB]) ⟨[], []⟩ rfl rfl).2.2.2.2.2.1
      (by decide) 0xCD 0xAB [] rfl).1).trans (by decide),
   ((smcGetVariable_sentinel scripted 3 20 (start [some 2] [some [7]])
      (some 2) ⟨[], [some [7]]⟩ (some [7]) ⟨[], []⟩ rfl rfl).2.2.2.1
      (by decide) (by decide)).trans (by decide)⟩

/-! ## Absent handles -/

/-- C4: on an absent (`NULL`) handle every operation reports failure and leaves the
world as it was (no write, no read, no other effect): `exit_safe_start` and
`set_current_speed` return `SERIAL_ERROR` (-9999), the four read accessors return
`SERIAL_ERROR`, and `get_powerup_time` returns 0. -/
theorem absent_handle_fails {σ : Type} (T : Transport σ) (w : World σ) (speed : Int) :
    exit_safe_start T none w = (-9999, w) ∧
    set_current_speed T none speed w = (-9999, w) ∧
    get_requested_speed T none w = (SERIAL_ERROR, w) ∧
    get_current_speed T none w = (SERIAL_ERROR, w) ∧
    get_current_voltage T none w = (SERIAL_ERROR, w) ∧
    get_current_temperature T none w = (SERIAL_ERROR, w) ∧
    get_powerup_time T none w = (0, w) ∧
    SERIAL_ERROR = -9999 := by
  have e : toI32 ((toU32 SERIAL_ERROR : Nat) : Int) = -9999 := by decide
  refine ⟨?_, rfl, rfl, rfl, rfl, rfl, rfl, rfl⟩
  simp only [exit_safe_start, e]

/-! ## The powered-on time -/

/-- A reading of `smcGetVariable` is the sentinel or a 16-bit value. -/
theorem smcGetVariable_range {σ : Type} (T : Transport σ) (fd : Int) (variableId : Nat)
    (w : World σ) :
    (smcGetVariable T fd variableId w).1 = SERIAL_ERROR ∨
    (0 ≤ (smcGetVariable T fd variableId w).1 ∧ (smcGetVariable T fd variableId w).1 ≤ 65535) := by
  rw [smcGetVariable_eq T fd variableId w _ rfl]
  split
  · exact Or.inl rfl
  · split
    · right
      simp only
      omega
    · exact Or.inl rfl

/-- The composition of line 149 on two 16-bit readings. -/
theorem compose_halves (l h : Nat) (hl : l ≤ 65535) (hh : h ≤ 65535) :
    toU32 (add32 (and32 (l : Int) 0xffff) (shl32 (and32 (h : Int) 0xffff) 16))
      = l + 65536 * h := by
  have ml : l &&& 65535 = l % 65536 := Nat.and_pow_two_sub_one_eq_mod l 16
  have mh : h &&& 65535 = h % 65536 := Nat.and_pow_two_sub_one_eq_mod h 16
  have el : and32 (l : Int) 0xffff = (l : Int) := by
    have e : and32 (l : Int) 0xffff = ((l &&& 0xffff : Nat) : Int) :=
      and32_natCast l 0xffff (by omega) (by decide)
    rw [e, ml, Nat.mod_eq_of_lt (by omega)]
  have eh : and32 (h : Int) 0xffff = (h : Int) := by
    have e : and32 (h : Int) 0xffff = ((h &&& 0xffff : Nat) : Int) :=
      and32_natCast h 0xffff (by omega) (by decide)
    rw [e, mh, Nat.mod_eq_of_lt (by omega)]
  rw [el, eh]
  have p : (2 : Int) ^ 16 = 65536 := by norm_num
  unfold toU32 add32 shl32 toI32
  rw [p]
  split_ifs <;> omega

/-- On two 16-bit halves the bitwise OR of the specification is the sum. -/
theorem or_halves (l h : Nat) (hl : l ≤ 65535) :
    (l &&& 0xFFFF) ||| ((h &&& 0xFFFF) <<< 16) = l + 65536 * (h &&& 0xFFFF) := by
  have ml : l &&& 65535 = l % 65536 := Nat.and_pow_two_sub_one_eq_mod l 16
  have key := Nat.mul_add_lt_is_or (show l < 2 ^ 16 by omega) (h &&& 0xFFFF)
  rw [show (l &&& 0xFFFF) = l by rw [ml]; exact Nat.mod_eq_of_lt (by omega),
    Nat.shiftLeft_eq, Nat.lor_comm, Nat.mul_comm, ← key]
  omega

/-- C5: on a present handle `get_powerup_time` reads the low half (variable 28) and
then the high half (variable 29); it returns 0 whenever either reading is the sentinel,
and for readings `lo`, `hi` in `[0, 65535]` it returns
`(lo & 0xFFFF) | ((hi & 0xFFFF) << 16) = lo + 65536 * hi`, a 32-bit unsigned value,
also when `hi >= 0x8000`; `lo = 59`, `hi = 0` gives 59. Every reading is the sentinel
or lies in `[0, 65535]`. -/
theorem get_powerup_time_compose {σ : Type} (T : Transport σ) (d : device_config)
    (w : World σ) (lo hi : Int) (w1 w2 : World σ)
    (hlo : smcGetVariable T d.file_descriptor 28 w = (lo, w1))
    (hhi : smcGetVariable T d.file_descriptor 29 w1 = (hi, w2)) :
    ((lo = SERIAL_ERROR ∨ hi = SERIAL_ERROR) → get_powerup_time T (some d) w = (0, w2)) ∧
    (∀ l h : Nat, l ≤ 65535 → h ≤ 65535 → lo = (l : Int) → hi = (h : Int) →
      get_powerup_time T (some d) w = ((l &&& 0xFFFF) ||| ((h &&& 0xFFFF) <<< 16), w2) ∧
      (l &&& 0xFFFF) ||| ((h &&& 0xFFFF) <<< 16) = l + 65536 * h ∧
      l + 65536 * h < 4294967296) ∧
    (lo = 59 → hi = 0 → get_powerup_time T (some d) w = (59, w2)) ∧
    (lo = SERIAL_ERROR ∨ (0 ≤ lo ∧ lo ≤ 65535)) ∧
    (hi = SERIAL_ERROR ∨ (0 ≤ hi ∧ hi ≤ 65535)) := by
  have hlo1 : smcGetVariable T d.file_descriptor MOTOR_VAR_POWERUP_TIME_LO w = (lo, w1) := hlo
  have hhi1 : smcGetVariable T d.file_descriptor MOTOR_VAR_POWERUP_TIME_HI w1 = (hi, w2) := hhi
  have good : ∀ l h : Nat, l ≤ 65535 → h ≤ 65535 → lo = (l : Int) → hi = (h : Int) →
      get_powerup_time T (some d) w = (l + 65536 * h, w2) := by
    intro l h hl hh el eh
    have n1 : lo ≠ SERIAL_ERROR := by rw [el]; simp only [SERIAL_ERROR]; omega
    have n2 : hi ≠ SERIAL_ERROR := by rw [eh]; simp only [SERIAL_ERROR]; omega
    simp only [get_powerup_time, hlo1, hhi1, n1, n2, ne_eq, not_false_eq_true, and_self,
      if_true]
    rw [el, eh, compose_halves l h hl hh]
  refine ⟨?_, ?_, ?_, ?_, ?_⟩
  · intro hbad
    have : ¬ (lo ≠ SERIAL_ERROR ∧ hi ≠ SERIAL_ERROR) := by
      rcases hbad with h | h
      · exact fun c => c.1 h
      · exact fun c => c.2 h
    simp only [get_powerup_time, hlo1, hhi1, this, if_false]
  · intro l h hl hh el eh
    have hm : h &&& 0xFFFF = h := by
      have mh : h &&& 65535 = h % 65536 := Nat.and_pow_two_sub_one_eq_mod h 16
      rw [mh]; exact Nat.mod_eq_of_lt (by omega)
    have ho : (l &&& 0xFFFF) ||| ((h &&& 0xFFFF) <<< 16) = l + 65536 * h := by
      rw [or_halves l h hl, hm]
    exact ⟨by rw [ho]; exact good l h hl hh el eh, ho, by omega⟩
  · intro el eh
    exact good 59 0 (by decide) (by decide) el eh
  · have := smcGetVariable_range T d.file_descriptor 28 w
    rw [hlo] at this
    exact this
  · have := smcGetVariable_range T d.file_descriptor 29 w1
    rw [hhi] at this
    exact this

theorem get_powerup_time_compose_witness :
    get_powerup_time scripted (some ⟨3⟩)
        (start [some 2, some 2] [some [0x34, 0x12], some [0xCD, 0xAB]])
      = (0xABCD1234,
          { dev := ⟨[], []⟩,
            log := [Event.write 3 [0xA1, 28], Event.read 3 2,
                    Event.write 3 [0xA1, 29], Event.read 3 2] }) :=
  ((get_powerup_time_compose scripted ⟨3⟩
      (start [some 2, some 2] [some [0x34, 0x12], some [0xCD, 0xAB]]) 0x1234 0xABCD
      { dev := ⟨[some 2], [some [0xCD, 0xAB]]⟩,
        log := [Event.write 3 [0xA1, 28], Event.read 3 2] }
      { dev := ⟨[], []⟩,
        log := [Event.write 3 [0xA1, 28], Event.read 3 2,
                Event.write 3 [0xA1, 29], Event.read 3 2] }
      (by decide) (by decide)).2.1 0x1234 0xABCD (by decide) (by decide) rfl rfl).1.trans
    (by decide)

/-! ## Direction and magnitude of the set-speed command -/

/-- C6 as stated fails at magnitude 0: the speed `-0` is the `int` 0, which is not
negative, so the opcode written is `0x85` and not `0x86`. -/
theorem set_current_speed_minus_zero :
    (set_current_speed scripted (some ⟨3⟩) (-((0 : Nat) : Int)) (start [some 3] [])).2.log
      = [Event.write 3 [0x85, 0, 0]] ∧
    ¬ (∀ m : Nat, m ≤ 4095 →
        (set_current_speed scripted (some ⟨3⟩) (-(m : Int)) (start [some 3] [])).2.log
          = [Event.write 3 [0x86, m &&& 0x1F, (m >>> 5) &&& 0x7F]]) := by
  refine ⟨by decide, fun h => ?_⟩
  have h0 := h 0 (by decide)
  revert h0
  decide

/-- C6, amended: for every magnitude `m` in `[0, 4095]`, speed `+m` writes opcode `0x85`
and speed `-m` writes opcode `0x86` when `m >= 1` (and `0x85` when `m = 0`, where `-m`
is the same speed 0), both with the payload bytes `(m & 0x1F, (m >> 5) & 0x7F)`. -/
theorem set_current_speed_direction {σ : Type} (T : Transport σ) (d : device_config)
    (w : World σ) (m : Nat) (hm : m ≤ 4095) :
    (set_current_speed T (some d) (m : Int) w).2.log
        = w.log ++ Event.write d.file_descriptor [0x85, m &&& 0x1F, (m >>> 5) &&& 0x7F]
          :: (if (set_current_speed T (some d) (m : Int) w).1 = SERIAL_ERROR
              then [Event.perror Msg.error_writing] else []) ∧
    (set_current_speed T (some d) (-(m : Int)) w).2.log
        = w.log ++ Event.write d.file_descriptor
            [if m = 0 then 0x85 else 0x86, m &&& 0x1F, (m >>> 5) &&& 0x7F]
          :: (if (set_current_speed T (some d) (-(m : Int)) w).1 = SERIAL_ERROR
              then [Event.perror Msg.error_writing] else []) := by
  have gen : ∀ s : Int, -2147483648 ≤ s → s ≤ 2147483647 → ∀ cmd : List Nat,
      cmd = [if s < 0 then 0x86 else 0x85, s.natAbs &&& 0x1F, (s.natAbs >>> 5) &&& 0x7F] →
      (set_current_speed T (some d) s w).2.log
        = w.log ++ Event.write d.file_descriptor cmd
          :: (if (set_current_speed T (some d) s w).1 = SERIAL_ERROR
              then [Event.perror Msg.error_writing] else []) := by
    intro s hs1 hs2 cmd hcmd
    rw [set_current_speed_some T d s w hs1 hs2 cmd hcmd]
    by_cases hw : (T.write w.dev d.file_descriptor cmd).1 = none
    · rw [if_pos hw]
      simp [SERIAL_ERROR]
    · rw [if_neg hw]
      simp [SERIAL_ERROR, SERIAL_OK]
  constructor
  · apply gen (m : Int) (by omega) (by omega)
    rw [if_neg (by omega), Int.natAbs_ofNat]
  · apply gen (-(m : Int)) (by omega) (by omega)
    rw [Int.natAbs_neg, Int.natAbs_ofNat]
    by_cases h0 : m = 0
    · rw [if_pos h0, if_neg (by omega)]
    · rw [if_neg h0, if_pos (by omega)]

theorem set_current_speed_direction_witness :
    (1234 : Nat) ≤ 4095 ∧
    (set_current_speed scripted (some ⟨3⟩) (-((1234 : Nat) : Int)) (start [some 3] [])).2.log
      = [Event.write 3 [0x86, 18, 38]] :=
  ⟨by decide,
    (set_current_speed_direction scripted ⟨3⟩ (start [some 3] []) 1234 (by decide)).2.trans
      (by decide)⟩

/-- The payload bytes only see the low twelve bits of the magnitude. -/
theorem payload_low_bits (m : Nat) :
    m &&& 0x1F = (m % 4096) &&& 0x1F ∧
    (m >>> 5) &&& 0x7F = ((m % 4096) >>> 5) &&& 0x7F := by
  have a1 := Nat.and_pow_two_sub_one_eq_mod m 5
  have a2 := Nat.and_pow_two_sub_one_eq_mod (m % 4096) 5
  have a3 := Nat.and_pow_two_sub_one_eq_mod (m >>> 5) 7
  have a4 := Nat.and_pow_two_sub_one_eq_mod ((m % 4096) >>> 5) 7
  simp only [Nat.shiftRight_eq_div_pow] at a3 a4 ⊢
  norm_num at a1 a2 a3 a4 ⊢
  rw [a1, a2, a3, a4]
  omega

/-- C7: for every magnitude `m >= 4096` that is a 32-bit signed speed, `set_current_speed`
on `m` does exactly what it does on `m mod 4096` (same bytes written, same result), so
the payload is that of `m mod 4096` and no error comes from the magnitude: on a present
handle the result is `SERIAL_ERROR` only when the channel refuses the write. Speed `-m`
carries the payload of `m mod 4096` as well. -/
theorem set_current_speed_wraps {σ : Type} (T : Transport σ) (dc : Option device_config)
    (w : World σ) (m : Nat) (h1 : 4096 ≤ m) (h2 : m ≤ 2147483647) :
    set_current_speed T dc (m : Int) w = set_current_speed T dc ((m % 4096 : Nat) : Int) w ∧
    (∀ d : device_config,
      (set_current_speed T (some d) (m : Int) w).2.log
        = w.log ++ Event.write d.file_descriptor
            [0x85, (m % 4096) &&& 0x1F, ((m % 4096) >>> 5) &&& 0x7F]
          :: (if (set_current_speed T (some d) (m : Int) w).1 = SERIAL_ERROR
              then [Event.perror Msg.error_writing] else []) ∧
      (set_current_speed T (some d) (-(m : Int)) w).2.log
        = w.log ++ Event.write d.file_descriptor
            [0x86, (m % 4096) &&& 0x1F, ((m % 4096) >>> 5) &&& 0x7F]
          :: (if (set_current_speed T (some d) (-(m : Int)) w).1 = SERIAL_ERROR
              then [Event.perror Msg.error_writing] else []) ∧
      ((set_current_speed T (some d) (m : Int) w).1 = SERIAL_ERROR ↔
        (T.write w.dev d.file_descriptor
          [0x85, (m % 4096) &&& 0x1F, ((m % 4096) >>> 5) &&& 0x7F]).1 = none)) := by
  obtain ⟨q1, q2⟩ := payload_low_bits m
  have hmod : m % 4096 < 4096 := Nat.mod_lt _ (by decide)
  have big : ∀ d : device_config, set_current_speed T (some d) (m : Int) w = _ :=
    fun d => set_current_speed_some T d (m : Int) w (by omega) (by omega)
      [0x85, (m % 4096) &&& 0x1F, ((m % 4096) >>> 5) &&& 0x7F]
      (by rw [if_neg (by omega), Int.natAbs_ofNat, ← q1, ← q2])
  have small : ∀ d : device_config,
      set_current_speed T (some d) ((m % 4096 : Nat) : Int) w = _ :=
    fun d => set_current_speed_some T d ((m % 4096 : Nat) : Int) w (by omega) (by omega)
      [0x85, (m % 4096) &&& 0x1F, ((m % 4096) >>> 5) &&& 0x7F]
      (by rw [if_neg (by omega), Int.natAbs_ofNat])
  have neg : ∀ d : device_config, set_current_speed T (some d) (-(m : Int)) w = _ :=
    fun d => set_current_speed_some T d (-(m : Int)) w (by omega) (by omega)
      [0x86, (m % 4096) &&& 0x1F, ((m % 4096) >>> 5) &&& 0x7F]
      (by rw [if_pos (by omega), Int.natAbs_neg, Int.natAbs_ofNat, ← q1, ← q2])
  constructor
  · cases dc with
    | none => rfl
    | some d => rw [big d, small d]
  · intro d
    refine ⟨?_, ?_, ?_⟩
    · rw [big d]
      split <;> simp [SERIAL_ERROR, SERIAL_OK]
    · rw [neg d]
      split <;> simp [SERIAL_ERROR, SERIAL_OK]
    · rw [big d]
      split <;> simp [SERIAL_ERROR, SERIAL_OK, *]

theorem set_current_speed_wraps_witness :
    (4096 : Nat) ≤ 5000 ∧ (5000 : Nat) ≤ 2147483647 ∧
    set_current_speed scripted (some ⟨3⟩) ((5000 : Nat) : Int) (start [some 3] [])
      = (SERIAL_OK, { dev := ⟨[], []⟩, log := [Event.write 3 [0x85, 8, 28]] }) :=
  ⟨by decide, by decide,
    (set_current_speed_wraps scripted (some ⟨3⟩) (start [some 3] []) 5000
      (by decide) (by decide)).1.trans (by decide)⟩

/-! ## Results of the two commands -/

/-- C8 as stated fails on a write that is accepted short: the channel takes 0 of the
1 byte (`write` returns 0, not -1) and `exit_safe_start` still returns `SERIAL_OK`. -/
theorem exit_safe_start_short_write :
    (sys_write scripted 3 [0x83] (start [some 0] [])).1 = 0 ∧
    exit_safe_start scripted (some ⟨3⟩) (start [some 0] [])
      = (SERIAL_OK, { dev := ⟨[], []⟩, log := [Event.write 3 [0x83]] }) ∧
    (exit_safe_start scripted (some ⟨3⟩) (start [some 0] [])).1 ≠ SERIAL_ERROR := by
  decide

/-- C8, amended: `exit_safe_start` returns `SERIAL_ERROR` if the handle is absent or the
write of the 1-byte command reports an error (`write` returns -1), and `SERIAL_OK` (0)
otherwise, whatever the number of bytes the channel accepted. -/
theorem exit_safe_start_result {σ : Type} (T : Transport σ) (w : World σ) :
    (exit_safe_start T none w).1 = SERIAL_ERROR ∧
    (∀ d : device_config, (sys_write T d.file_descriptor [0x83] w).1 = -1 →
      (exit_safe_start T (some d) w).1 = SERIAL_ERROR) ∧
    (∀ d : device_config, (sys_write T d.file_descriptor [0x83] w).1 ≠ -1 →
      (exit_safe_start T (some d) w).1 = SERIAL_OK) ∧
    SERIAL_ERROR = -9999 ∧ SERIAL_OK = 0 := by
  have e : toI32 ((toU32 SERIAL_ERROR : Nat) : Int) = SERIAL_ERROR := by decide
  have e0 : toI32 ((toU32 SERIAL_OK : Nat) : Int) = SERIAL_OK := by decide
  have hc : [MOTOR_EXIT_SAFE_START] = [0x83] := rfl
  refine ⟨?_, ?_, ?_, rfl, rfl⟩
  · simp only [exit_safe_start, e]
  · intro d h
    simp only [exit_safe_start, e, hc, h, if_true]
  · intro d h
    simp only [exit_safe_start, e0, hc, h, if_false]

theorem exit_safe_start_result_witness :
    (exit_safe_start scripted (some ⟨3⟩) (start [none] [])).1 = SERIAL_ERROR :=
  (exit_safe_start_result scripted (start [none] [])).2.1 ⟨3⟩ (by decide)

/-- C9 as stated fails on a write that is accepted short: the channel takes 2 of the
3 bytes (`write` returns 2, not -1) and `set_current_speed` still returns `SERIAL_OK`. -/
theorem set_current_speed_short_write :
    (sys_write scripted 3 [0x85, 4, 3] (start [some 2] [])).1 = 2 ∧
    set_current_speed scripted (some ⟨3⟩) 100 (start [some 2] [])
      = (SERIAL_OK, { dev := ⟨[], []⟩, log := [Event.write 3 [0x85, 4, 3]] }) ∧
    (set_current_speed scripted (some ⟨3⟩) 100 (start [some 2] [])).1 ≠ SERIAL_ERROR := by
  decide

/-- C9, amended: for every (32-bit) speed, `set_current_speed` returns `SERIAL_ERROR` if
the handle is absent or the write of the 3-byte command reports an error (`write` returns
-1), and `SERIAL_OK` (0) otherwise, whatever the number of bytes the channel accepted; it
never reads: on a present handle its only effects are the one write and, on an error, a
`perror`. -/
theorem set_current_speed_result {σ : Type} (T : Transport σ) (w : World σ) (speed : Int)
    (h1 : -2147483648 ≤ speed) (h2 : speed ≤ 2147483647) :
    set_current_speed T none speed w = (SERIAL_ERROR, w) ∧
    (∀ (d : device_config) (cmd : List Nat),
      cmd = [if speed < 0 then 0x86 else 0x85, speed.natAbs &&& 0x1F,
        (speed.natAbs >>> 5) &&& 0x7F] →
      ((sys_write T d.file_descriptor cmd w).1 = -1 →
        set_current_speed T (some d) speed w
          = (SERIAL_ERROR,
              { dev := (T.write w.dev d.file_descriptor cmd).2,
                log := w.log ++ [Event.write d.file_descriptor cmd,
                                 Event.perror Msg.error_writing] })) ∧
      ((sys_write T d.file_descriptor cmd w).1 ≠ -1 →
        set_current_speed T (some d) speed w
          = (SERIAL_OK,
              { dev := (T.write w.dev d.file_descriptor cmd).2,
                log := w.log ++ [Event.write d.file_descriptor cmd] }))) ∧
    SERIAL_ERROR = -9999 ∧ SERIAL_OK = 0 := by
  refine ⟨rfl, ?_, rfl, rfl⟩
  intro d cmd hcmd
  rw [set_current_speed_some T d speed w h1 h2 cmd hcmd]
  simp only [sys_write]
  constructor
  · intro h
    rw [if_pos ((writeCount_eq_neg_one _ _).1 h)]
  · intro h
    rw [if_neg (fun c => h ((writeCount_eq_neg_one _ _).2 c))]

theorem set_current_speed_result_witness :
    (-2147483648 : Int) ≤ 100 ∧ (100 : Int) ≤ 2147483647 ∧
    set_current_speed scripted (some ⟨3⟩) 100 (start [none] [])
      = (SERIAL_ERROR,
          { dev := ⟨[], []⟩,
            log := [Event.write 3 [0x85, 4, 3], Event.perror Msg.error_writing] }) :=
  ⟨by decide, by decide,
    ((set_current_speed_result scripted (start [none] []) 100 (by decide) (by decide)).2.1
      ⟨3⟩ [0x85, 4, 3] (by decide)).1 (by decide)⟩

/-! ## Closing a handle -/

/-- C10, on the code: `close_device` on `NULL` changes nothing, and the first call on a
present handle closes the descriptor and frees the block once; a second call on the same
pointer is not a no-op: the pointer is still not `NULL`, so the call follows it into
the block that was freed. -/
theorem close_device_twice :
    (∀ m : Store, close_device none m = Outcome.done m) ∧
    close_device (some 16) { heap := [(16, Cell.live ⟨3⟩)], fds := [3], log := [] }
      = Outcome.done
          { heap := [(16, Cell.released)], fds := [],
            log := [Event.close 3, Event.free 16] } ∧
    close_device (some 16)
        { heap := [(16, Cell.released)], fds := [], log := [Event.close 3, Event.free 16] }
      = Outcome.fault (Fault.use_after_free 16) := by
  refine ⟨fun _ => rfl, by decide, by decide⟩

/-! ## The read accessors -/

theorem writesOf_append (a b : List Event) : writesOf (a ++ b) = writesOf a ++ writesOf b := by
  simp [writesOf, List.filterMap_append]

theorem readsOf_append (a b : List Event) : readsOf (a ++ b) = readsOf a ++ readsOf b := by
  simp [readsOf, List.filterMap_append]

/-- The one write of `smcGetVariable`: the two bytes `[0xA1, id]`. -/
theorem smcGetVariable_writes {σ : Type} (T : Transport σ) (fd : Int) (variableId : Nat)
    (w : World σ) :
    writesOf (smcGetVariable T fd variableId w).2.log
      = writesOf w.log ++ [(fd, [0xA1, variableId % 256])] := by
  rw [smcGetVariable_eq T fd variableId w _ rfl]
  split
  · simp [writesOf_append, writesOf]
  · split <;> simp [writesOf_append, writesOf]

/-- C11: on a present handle each read accessor is one `smcGetVariable` call with its
fixed identifier (20 requested speed, 21 current speed, 23 voltage, 24 temperature; 0 for
`smcGetErrorStatus`; 28 and then 29 for `get_powerup_time`): the value returned is the
reading of that call, unchanged, and the writes performed are exactly the two bytes
`[0xA1, id]` of each call. -/
theorem read_accessors_single_call {σ : Type} (T : Transport σ) (d : device_config)
    (w : World σ) :
    (get_requested_speed T (some d) w = smcGetVariable T d.file_descriptor 20 w ∧
      writesOf (get_requested_speed T (some d) w).2.log
        = writesOf w.log ++ [(d.file_descriptor, [0xA1, 20])]) ∧
    (get_current_speed T (some d) w = smcGetVariable T d.file_descriptor 21 w ∧
      writesOf (get_current_speed T (some d) w).2.log
        = writesOf w.log ++ [(d.file_descriptor, [0xA1, 21])]) ∧
    (get_current_voltage T (some d) w = smcGetVariable T d.file_descriptor 23 w ∧
      writesOf (get_current_voltage T (some d) w).2.log
        = writesOf w.log ++ [(d.file_descriptor, [0xA1, 23])]) ∧
    (get_current_temperature T (some d) w = smcGetVariable T d.file_descriptor 24 w ∧
      writesOf (get_current_temperature T (some d) w).2.log
        = writesOf w.log ++ [(d.file_descriptor, [0xA1, 24])]) ∧
    (smcGetErrorStatus T d.file_descriptor w = smcGetVariable T d.file_descriptor 0 w ∧
      writesOf (smcGetErrorStatus T d.file_descriptor w).2.log
        = writesOf w.log ++ [(d.file_descriptor, [0xA1, 0])]) ∧
    ((get_powerup_time T (some d) w).2
        = (smcGetVariable T d.file_descriptor 29
            (smcGetVariable T d.file_descriptor 28 w).2).2 ∧
      writesOf (get_powerup_time T (some d) w).2.log
        = writesOf w.log ++ [(d.file_descriptor, [0xA1, 28]), (d.file_descriptor, [0xA1, 29])]) := by
  have one : ∀ id : Nat, id < 256 →
      writesOf (smcGetVariable T d.file_descriptor id w).2.log
        = writesOf w.log ++ [(d.file_descriptor, [0xA1, id])] := by
    intro id hid
    have := smcGetVariable_writes T d.file_descriptor id w
    rwa [Nat.mod_eq_of_lt hid] at this
  have hp : (get_powerup_time T (some d) w).2
      = (smcGetVariable T d.file_descriptor 29
          (smcGetVariable T d.file_descriptor 28 w).2).2 := by
    simp only [get_powerup_time, MOTOR_VAR_POWERUP_TIME_LO, MOTOR_VAR_POWERUP_TIME_HI]
    split <;> rfl
  refine ⟨⟨rfl, one 20 (by decide)⟩, ⟨rfl, one 21 (by decide)⟩, ⟨rfl, one 23 (by decide)⟩,
    ⟨rfl, one 24 (by decide)⟩, ⟨rfl, one 0 (by decide)⟩, hp, ?_⟩
  rw [hp, smcGetVariable_writes, smcGetVariable_writes, List.append_assoc]
  rfl

/-! ## The exit-safe-start command -/

/-- C12: on a present handle `exit_safe_start` performs exactly one write, of the single
byte `0x83`, and no read, whatever the outcome of the write: the device is left as that
write leaves it and the only other effect is a `perror` when the result is the error. -/
theorem exit_safe_start_one_write {σ : Type} (T : Transport σ) (d : device_config)
    (w : World σ) :
    (exit_safe_start T (some d) w).2
      = { dev := (T.write w.dev d.file_descriptor [0x83]).2,
          log := w.log ++ Event.write d.file_descriptor [0x83]
            :: (if (exit_safe_start T (some d) w).1 = SERIAL_ERROR
                then [Event.perror Msg.error_writing] else []) } ∧
    writesOf (exit_safe_start T (some d) w).2.log
      = writesOf w.log ++ [(d.file_descriptor, [0x83])] ∧
    readsOf (exit_safe_start T (some d) w).2.log = readsOf w.log := by
  have e : toI32 ((toU32 SERIAL_ERROR : Nat) : Int) = SERIAL_ERROR := by decide
  have e0 : toI32 ((toU32 SERIAL_OK : Nat) : Int) = SERIAL_OK := by decide
  have hc : [MOTOR_EXIT_SAFE_START] = [0x83] := rfl
  simp only [exit_safe_start, e, e0, hc, sys_write, sys_perror, writeCount_eq_neg_one]
  by_cases hw : (T.write w.dev d.file_descriptor [0x83]).1 = none
  · simp [hw, writesOf_append, readsOf_append, writesOf, readsOf]
  · simp [hw, writesOf_append, readsOf_append, writesOf, readsOf, SERIAL_OK, SERIAL_ERROR]

/-! ## The payload as a 12-bit number -/

/-- The effect log of `set_current_speed` on a present handle starts with the one write. -/
theorem set_current_speed_log {σ : Type} (T : Transport σ) (d : device_config)
    (w : World σ) (s : Int) (h1 : -2147483648 ≤ s) (h2 : s ≤ 2147483647) :
    ∃ tail : List Event,
      (set_current_speed T (some d) s w).2.log
        = w.log ++ Event.write d.file_descriptor
            [if s < 0 then 0x86 else 0x85, s.natAbs &&& 0x1F, (s.natAbs >>> 5) &&& 0x7F]
          :: tail ∧
      (tail = [] ∨ tail = [Event.perror Msg.error_writing]) := by
  rw [set_current_speed_some T d s w h1 h2 _ rfl]
  by_cases hw : (T.write w.dev d.file_descriptor
      [if s < 0 then 0x86 else 0x85, s.natAbs &&& 0x1F, (s.natAbs >>> 5) &&& 0x7F]).1 = none
  · rw [if_pos hw]
    exact ⟨[Event.perror Msg.error_writing], rfl, Or.inr rfl⟩
  · rw [if_neg hw]
    exact ⟨[], rfl, Or.inl rfl⟩

/-- The low five bits and the next seven bits make up a 12-bit magnitude. -/
theorem payload_sum (m : Nat) (hm : m ≤ 4095) :
    (m &&& 0x1F) + 32 * ((m >>> 5) &&& 0x7F) = m := by
  have a1 := Nat.and_pow_two_sub_one_eq_mod m 5
  have a3 := Nat.and_pow_two_sub_one_eq_mod (m >>> 5) 7
  simp only [Nat.shiftRight_eq_div_pow] at a3 ⊢
  norm_num at a1 a3 ⊢
  rw [a1, a3]
  omega

/-- C13: for every magnitude `m` in `[0, 4095]` and speed `m` or `-m`, the command written
by `set_current_speed` is `[op, b1, b2]` with `b1 + 32 * b2 = m`; so two magnitudes of
`[0, 4095]` whose commands carry the same payload are equal. -/
theorem payload_encodes_magnitude {σ : Type} (T : Transport σ) (d : device_config)
    (w : World σ) (m : Nat) (hm : m ≤ 4095) (s : Int) (hs : s = (m : Int) ∨ s = -(m : Int)) :
    (∃ (op b1 b2 : Nat) (tail : List Event),
      (set_current_speed T (some d) s w).2.log
        = w.log ++ Event.write d.file_descriptor [op, b1, b2] :: tail ∧
      b1 + 32 * b2 = m) ∧
    (∀ (op b1 b2 : Nat) (tail : List Event),
      (set_current_speed T (some d) s w).2.log
        = w.log ++ Event.write d.file_descriptor [op, b1, b2] :: tail →
      b1 + 32 * b2 = m) ∧
    (∀ (m2 : Nat) (s2 : Int), m2 ≤ 4095 → (s2 = (m2 : Int) ∨ s2 = -(m2 : Int)) →
      ∀ (op op2 b1 b2 : Nat) (tail tail2 : List Event),
      (set_current_speed T (some d) s w).2.log
        = w.log ++ Event.write d.file_descriptor [op, b1, b2] :: tail →
      (set_current_speed T (some d) s2 w).2.log
        = w.log ++ Event.write d.file_descriptor [op2, b1, b2] :: tail2 →
      m = m2) := by
  have uniq : ∀ (n : Nat) (t : Int), n ≤ 4095 → (t = (n : Int) ∨ t = -(n : Int)) →
      ∀ (op b1 b2 : Nat) (tail : List Event),
      (set_current_speed T (some d) t w).2.log
        = w.log ++ Event.write d.file_descriptor [op, b1, b2] :: tail →
      b1 + 32 * b2 = n := by
    intro n t hn ht op b1 b2 tail hlog
    have habs : t.natAbs = n := by omega
    obtain ⟨tl, heq, _⟩ := set_current_speed_log T d w t (by omega) (by omega)
    rw [heq, habs] at hlog
    have h3 := List.append_cancel_left hlog
    simp only [List.cons.injEq, Event.write.injEq, true_and, and_true] at h3
    obtain ⟨⟨_, e1, e2⟩, _⟩ := h3
    rw [← e1, ← e2]
    exact payload_sum n hn
  refine ⟨?_, uniq m s hm hs, ?_⟩
  · obtain ⟨tl, heq, _⟩ := set_current_speed_log T d w s (by omega) (by omega)
    have habs : s.natAbs = m := by omega
    exact ⟨_, _, _, tl, heq, by rw [habs]; exact payload_sum m hm⟩
  · intro m2 s2 hm2 hs2 op op2 b1 b2 tail tail2 hl hl2
    rw [← uniq m s hm hs op b1 b2 tail hl, ← uniq m2 s2 hm2 hs2 op2 b1 b2 tail2 hl2]

theorem payload_encodes_magnitude_witness :
    (1234 : Nat) ≤ 4095 ∧
    ∃ (op b1 b2 : Nat) (tail : List Event),
      (set_current_speed scripted (some ⟨3⟩) (-1234) (start [some 3] [])).2.log
        = (start [some 3] []).log ++ Event.write 3 [op, b1, b2] :: tail ∧
      b1 + 32 * b2 = 1234 :=
  ⟨by decide,
    (payload_encodes_magnitude scripted ⟨3⟩ (start [some 3] []) 1234 (by decide) (-1234)
      (Or.inr rfl)).1⟩

/-! ## Decoding against a little-endian encoding -/

/-- C14: the decoding of `smcGetVariable` inverts the little-endian encoding of a 16-bit
value: when the response bytes are `(v mod 256, v div 256)` for `v` in `[0, 65535]` the
result is `v`, and for every byte pair `(b0, b1)` the result `r` has
`(r mod 256, r div 256) = (b0, b1)`. -/
theorem smcGetVariable_round_trip {σ : Type} (T : Transport σ) (fd : Int)
    (variableId : Nat) (w : World σ) (k : Nat)
    (hw : (T.write w.dev fd [0xA1, variableId % 256]).1 = some k) :
    (∀ (v : Nat) (rest : List Nat), v ≤ 65535 →
      (T.read (T.write w.dev fd [0xA1, variableId % 256]).2 fd 2).1
        = some (v % 256 :: v / 256 :: rest) →
      (smcGetVariable T fd variableId w).1 = (v : Int)) ∧
    (∀ (b0 b1 : Nat) (rest : List Nat), b0 ≤ 255 → b1 ≤ 255 →
      (T.read (T.write w.dev fd [0xA1, variableId % 256]).2 fd 2).1
        = some (b0 :: b1 :: rest) →
      (smcGetVariable T fd variableId w).1 % 256 = (b0 : Int) ∧
      (smcGetVariable T fd variableId w).1 / 256 = (b1 : Int)) := by
  have dec : ∀ (b0 b1 : Nat) (rest : List Nat), b0 ≤ 255 → b1 ≤ 255 →
      (T.read (T.write w.dev fd [0xA1, variableId % 256]).2 fd 2).1
        = some (b0 :: b1 :: rest) →
      (smcGetVariable T fd variableId w).1 = (b0 : Int) + 256 * (b1 : Int) := by
    intro b0 b1 rest h0 h1 hr
    rw [smcGetVariable_eq T fd variableId w _ rfl]
    simp only [hw, hr]
    simp [Nat.mod_eq_of_lt (show b0 < 256 by omega), Nat.mod_eq_of_lt (show b1 < 256 by omega)]
  constructor
  · intro v rest hv hr
    have hlt : v % 256 < 256 := Nat.mod_lt _ (by decide)
    rw [dec (v % 256) (v / 256) rest (by omega) (by omega) hr]
    omega
  · intro b0 b1 rest h0 h1 hr
    rw [dec b0 b1 rest h0 h1 hr]
    omega

theorem smcGetVariable_round_trip_witness :
    (smcGetVariable scripted 3 23 (start [some 2] [some [0xCD, 0xAB]])).1 = 0xABCD :=
  (smcGetVariable_round_trip scripted 3 23 (start [some 2] [some [0xCD, 0xAB]]) 2
    (by decide)).1 0xABCD [] (by decide) (by decide)

/-! ## The uptime shown by the query mode -/

/-- C15, on the code: the values shown agree with `t div 60000`, `(t div 1000) mod 60` and
`t` as long as `t < 2^31`; from `2^31` on the conversion `int up0 = get_powerup_time(dc0)`
makes the time negative. With the low half 0 and the high half `0x8000`,
`get_powerup_time` returns `2147483648` and the values shown are `-35791`, `-23` and
`-2147483648`, where the claim has `35791`, `23` and `2147483648`. -/
theorem uptime_fields_wrap :
    (∀ t : Nat, t < 2147483648 →
      uptime_fields t = (((t / 60000 : Nat) : Int), (((t / 1000) % 60 : Nat) : Int), (t : Int))) ∧
    (get_powerup_time scripted (some ⟨3⟩)
      (start [some 2, some 2] [some [0, 0], some [0, 0x80]])).1 = 2147483648 ∧
    (main_uptime scripted (some ⟨3⟩) none
      (start [some 2, some 2] [some [0, 0], some [0, 0x80]])).1.1
      = (-35791, -23, -2147483648) ∧
    uptime_fields 2147483648 = (-35791, -23, -2147483648) ∧
    (2147483648 / 60000, (2147483648 / 1000) % 60) = (35791, 23) := by
  refine ⟨?_, by decide, by decide, by decide, by decide⟩
  intro t ht
  have hc : toI32 (t : Int) = (t : Int) := toI32_of_range _ (by omega) (by omega)
  have d1 : Int.tdiv (t : Int) 60000 = ((t / 60000 : Nat) : Int) := rfl
  have d2 : Int.tdiv (t : Int) 1000 = ((t / 1000 : Nat) : Int) := rfl
  simp only [uptime_fields, hc, d1, d2, Prod.mk.injEq, and_true, true_and]
  omega

/-! ## Which write results are errors -/

/-- C16: on a present handle `exit_safe_start` and `set_current_speed` return
`SERIAL_ERROR` exactly when the write call returns -1; for every other result of the
write, also a count below the length of the command, they return `SERIAL_OK` (0). -/
theorem error_only_on_minus_one {σ : Type} (T : Transport σ) (d : device_config)
    (w : World σ) (speed : Int) (h1 : -2147483648 ≤ speed) (h2 : speed ≤ 2147483647)
    (cmd : List Nat)
    (hcmd : cmd = [if speed < 0 then 0x86 else 0x85, speed.natAbs &&& 0x1F,
      (speed.natAbs >>> 5) &&& 0x7F]) :
    ((exit_safe_start T (some d) w).1 = SERIAL_ERROR ↔
      (sys_write T d.file_descriptor [0x83] w).1 = -1) ∧
    ((sys_write T d.file_descriptor [0x83] w).1 ≠ -1 →
      (exit_safe_start T (some d) w).1 = SERIAL_OK) ∧
    ((set_current_speed T (some d) speed w).1 = SERIAL_ERROR ↔
      (sys_write T d.file_descriptor cmd w).1 = -1) ∧
    ((sys_write T d.file_descriptor cmd w).1 ≠ -1 →
      (set_current_speed T (some d) speed w).1 = SERIAL_OK) ∧
    (∀ k : Nat, (T.write w.dev d.file_descriptor [0x83]).1 = some k →
      (sys_write T d.file_descriptor [0x83] w).1 = ((min k 1 : Nat) : Int) ∧
      (exit_safe_start T (some d) w).1 = SERIAL_OK) ∧
    (∀ k : Nat, (T.write w.dev d.file_descriptor cmd).1 = some k →
      (sys_write T d.file_descriptor cmd w).1 = ((min k 3 : Nat) : Int) ∧
      (set_current_speed T (some d) speed w).1 = SERIAL_OK) ∧
    SERIAL_ERROR = -9999 ∧ SERIAL_OK = 0 := by
  have e : toI32 ((toU32 SERIAL_ERROR : Nat) : Int) = SERIAL_ERROR := by decide
  have e0 : toI32 ((toU32 SERIAL_OK : Nat) : Int) = SERIAL_OK := by decide
  have hc : [MOTOR_EXIT_SAFE_START] = [0x83] := rfl
  have hne : SERIAL_OK ≠ SERIAL_ERROR := by decide
  have hl : cmd.length = 3 := by rw [hcmd]; rfl
  have x1 : (sys_write T d.file_descriptor [0x83] w).1 = -1 →
      (exit_safe_start T (some d) w).1 = SERIAL_ERROR := by
    intro h
    simp only [exit_safe_start, e, hc, h, if_true]
  have x2 : (sys_write T d.file_descriptor [0x83] w).1 ≠ -1 →
      (exit_safe_start T (some d) w).1 = SERIAL_OK := by
    intro h
    simp only [exit_safe_start, e0, hc, h, if_false]
  have y1 : (sys_write T d.file_descriptor cmd w).1 = -1 →
      (set_current_speed T (some d) speed w).1 = SERIAL_ERROR := by
    intro h
    rw [set_current_speed_some T d speed w h1 h2 cmd hcmd,
      if_pos ((writeCount_eq_neg_one _ _).1 h)]
  have y2 : (sys_write T d.file_descriptor cmd w).1 ≠ -1 →
      (set_current_speed T (some d) speed w).1 = SERIAL_OK := by
    intro h
    rw [set_current_speed_some T d speed w h1 h2 cmd hcmd,
      if_neg (fun c => h ((writeCount_eq_neg_one _ _).2 c))]
  refine ⟨⟨fun h => ?_, x1⟩, x2, ⟨fun h => ?_, y1⟩, y2, fun k hk => ?_, fun k hk => ?_,
    rfl, rfl⟩
  · by_contra hn
    exact hne ((x2 hn).symm.trans h)
  · by_contra hn
    exact hne ((y2 hn).symm.trans h)
  · have hv : (sys_write T d.file_descriptor [0x83] w).1 = ((min k 1 : Nat) : Int) := by
      simp only [sys_write, hk, writeCount, List.length_singleton]
    exact ⟨hv, x2 (by rw [hv]; omega)⟩
  · have hv : (sys_write T d.file_descriptor cmd w).1 = ((min k 3 : Nat) : Int) := by
      simp only [sys_write, hk, writeCount, hl]
    exact ⟨hv, y2 (by rw [hv]; omega)⟩

theorem error_only_on_minus_one_witness :
    (-2147483648 : Int) ≤ 100 ∧ (100 : Int) ≤ 2147483647 ∧
    (sys_write scripted 3 [0x85, 4, 3] (start [some 1] [])).1 = ((min 1 3 : Nat) : Int) ∧
    (set_current_speed scripted (some ⟨3⟩) 100 (start [some 1] [])).1 = SERIAL_OK :=
  ⟨by decide, by decide,
    (error_only_on_minus_one scripted ⟨3⟩ (start [some 1] []) 100 (by decide) (by decide)
      [0x85, 4, 3] (by decide)).2.2.2.2.2.1 1 (by decide)⟩

/-! ## Framing of the set-speed command -/

theorem low_byte_clear : ∀ b : Nat, b < 128 → b &&& 0x80 = 0 := by decide

/-- C17: for every signed 32-bit speed the command written by `set_current_speed` keeps
the framing of the wire format: it is three bytes `[op, b1, b2]`, the opcode is `0x85` or
`0x86` and has its most significant bit set, and both payload bytes have it clear, with
`b1 <= 31` and `b2 <= 127`. -/
theorem command_framing {σ : Type} (T : Transport σ) (d : device_config) (w : World σ)
    (speed : Int) (h1 : -2147483648 ≤ speed) (h2 : speed ≤ 2147483647) :
    ∃ (op b1 b2 : Nat) (tail : List Event),
      (set_current_speed T (some d) speed w).2.log
        = w.log ++ Event.write d.file_descriptor [op, b1, b2] :: tail ∧
      writesOf (set_current_speed T (some d) speed w).2.log
        = writesOf w.log ++ [(d.file_descriptor, [op, b1, b2])] ∧
      (op = 0x85 ∨ op = 0x86) ∧ op &&& 0x80 = 0x80 ∧
      b1 &&& 0x80 = 0 ∧ b2 &&& 0x80 = 0 ∧ b1 ≤ 31 ∧ b2 ≤ 127 := by
  obtain ⟨tail, hlog, htail⟩ := set_current_speed_log T d w speed h1 h2
  have hb1 : speed.natAbs &&& 0x1F ≤ 0x1F := Nat.and_le_right
  have hb2 : (speed.natAbs >>> 5) &&& 0x7F ≤ 0x7F := Nat.and_le_right
  refine ⟨_, _, _, tail, hlog, ?_, ?_, ?_, low_byte_clear _ (by omega),
    low_byte_clear _ (by omega), hb1, hb2⟩
  · rw [hlog, writesOf_append]
    rcases htail with h | h <;> subst h <;> rfl
  · by_cases hs : speed < 0
    · rw [if_pos hs]; exact Or.inr rfl
    · rw [if_neg hs]; exact Or.inl rfl
  · by_cases hs : speed < 0
    · rw [if_pos hs]; rfl
    · rw [if_neg hs]; rfl

theorem command_framing_witness :
    (-2147483648 : Int) ≤ -2147483648 ∧ (-2147483648 : Int) ≤ 2147483647 ∧
    ∃ (op b1 b2 : Nat) (tail : List Event),
      (set_current_speed scripted (some ⟨3⟩) (-2147483648) (start [some 3] [])).2.log
        = (start [some 3] []).log ++ Event.write 3 [op, b1, b2] :: tail ∧
      writesOf (set_current_speed scripted (some ⟨3⟩) (-2147483648) (start [some 3] [])).2.log
        = writesOf (start [some 3] []).log ++ [(3, [op, b1, b2])] ∧
      (op = 0x85 ∨ op = 0x86) ∧ op &&& 0x80 = 0x80 ∧
      b1 &&& 0x80 = 0 ∧ b2 &&& 0x80 = 0 ∧ b1 ≤ 31 ∧ b2 ≤ 127 :=
  ⟨by decide, by decide,
    command_framing scripted ⟨3⟩ (start [some 3] []) (-2147483648) (by decide) (by decide)⟩

end Motor
